import Mathlib

/-!
Shallow embedding of the two Haraka queue plugins of this repository:

* `plugins/queue/gcp_storage.js` — the Archival Stage (`save_email_in_bucket`):
  captures the raw message stream, parses it, uploads the raw bytes to a
  Google Cloud Storage bucket under `emails/<messageId>.eml`, attaches object
  metadata, and publishes a `storageReference` note for the next stage.
* `plugins/queue/firestore.js` — the Metadata Stage (`persist_email_details`):
  reparses the message, resolves a message identifier (reusing the storage
  identifier of the reference when present), looks up the recipient document
  whose `notifications_email` field equals the to text of the message, and
  writes a message-details document keyed by the identifier into that recipient
  sub-collection.

External effects (the mailparser library, the Firestore / Storage clients,
`crypto.randomBytes`, `Date.now()`) are modelled as explicit inputs: parse
results arrive as `Except` values, storage-client failures as injected fault
flags, the randomness of the storage plugin as the list of bytes drawn from
the generator, and clocks as explicit timestamp parameters.  The firestore
plugin, unlike the storage plugin, never requires `crypto` (and neither the
Haraka vm plugin sandbox nor the Node 24 global scope supplies a binding with
`randomBytes`), so its generated-identifier branch is an error path, not a
source of randomness.  The document store and the blob store are
explicit states threaded through the stage functions.  Each stage function
returns the single continuation outcome (`HookResult`) it passes to the Haraka
`next` callback, together with the updated per-message note and store state.
-/

deriving instance DecidableEq for Except

/-- Outcome of one invocation of a Haraka queue-hook continuation: `next()`
with no argument, `next(OK)`, or `next(DENYSOFT, reason)`. -/
inductive HookResult where
  | next : HookResult
  | nextOK : HookResult
  | nextDenySoft : String → HookResult
deriving DecidableEq, Repr

/-- An address header as produced by mailparser: display text plus the list of
bare addresses (only the bare-address list of `cc` is consumed, via
`addr.address`). -/
structure AddressText where
  text : String
  value : List String
deriving DecidableEq, Repr

/-- Structured view of a parsed email (the mailparser `ParsedEmail` fields the
plugins consume).  Dates are carried in their rendered string form; attachments
are modelled only by their presence and count, the only things the code reads. -/
structure ParsedEmail where
  messageId : Option String
  subject : Option String
  «from» : Option AddressText
  «to» : Option AddressText
  cc : Option AddressText
  bcc : Option AddressText
  inReplyTo : Option String
  date : Option String
  attachments : Option (List Unit)
  text : Option String
deriving DecidableEq, Repr

/-- The `storageReference` note published by the Archival Stage. -/
structure StorageReference where
  bucketName : String
  objectName : String
  messageId : String
  storageUrl : String
deriving DecidableEq, Repr

/-- Hexadecimal digit character, matching the lowercase hex rendering used by Node. -/
def hexDigit (n : Nat) : Char :=
  if n < 10 then Char.ofNat (48 + n) else Char.ofNat (97 + (n - 10))

/-- Node buffer hex rendering: two lowercase hex digits per byte. -/
def bytesToHex : List Nat → String
  | [] => ""
  | b :: rest => String.mk [hexDigit (b / 16 % 16), hexDigit (b % 16)] ++ bytesToHex rest

/-- JavaScript replace of the global angle-bracket character class by the empty
string: remove every angle-bracket character,
wherever it occurs. -/
def stripAngles (s : String) : String :=
  String.mk (s.toList.filter (fun c => !(c == '<') && !(c == '>')))

namespace FirestorePlugin

/-- The `generateMessageId` of `plugins/queue/firestore.js` as it executes: if
the parsed email carries a (non-empty, hence truthy) `messageId`, strip angle
brackets from it.  The fallback branch evaluates `crypto.randomBytes(16)`, but
this module never requires `crypto` — unlike `gcp_storage.js` — and neither
the Haraka vm plugin sandbox nor the Node 24 global scope binds a `crypto`
with `randomBytes`, so the fallback always throws (a ReferenceError, or a
TypeError on the global WebCrypto object) instead of returning an identifier;
it is modelled as an error result. -/
def generateMessageId (email : ParsedEmail) : Except String String :=
  match email.messageId with
  | some mid =>
      if mid.isEmpty then Except.error "crypto is not defined"
      else Except.ok (stripAngles mid)
  | none => Except.error "crypto is not defined"

end FirestorePlugin

namespace GcpStorage

/-- The `generateMessageId` of `plugins/queue/gcp_storage.js`: as in the
firestore plugin, but the generated form is
the hex rendering of the random bytes followed by a hyphen and the
`Date.now()` timestamp. -/
def generateMessageId (email : ParsedEmail) (randBytes : List Nat) (now : Nat) : String :=
  match email.messageId with
  | some mid =>
      if mid.isEmpty then bytesToHex randBytes ++ "-" ++ toString now else stripAngles mid
  | none => bytesToHex randBytes ++ "-" ++ toString now

end GcpStorage

/-- Modelled from the spec (§4.3): "strip any enclosing angle-bracket
delimiters and return it verbatim".  Used only to compare the wording of the
spec with the global angle-bracket removal performed by the code. -/
def stripEnclosingAngles (s : String) : String :=
  let l := s.toList
  if l.head? = some '<' ∧ l.getLast? = some '>' then String.mk ((l.drop 1).dropLast) else s

/-- JavaScript optional chaining plus default: the text of an optional address
header, or the empty string. -/
def optText (a : Option AddressText) : String :=
  match a with
  | some x => x.text
  | none => ""

/-- The message-details document built by `constructMessageDetails` in
`plugins/queue/firestore.js`.  The three storage fields are spread into the
object only when a `storageReference` is present, modelled as `Option` fields. -/
structure MessageDetails where
  messageId : String
  bucketName : Option String
  objectName : Option String
  storageUrl : Option String
  subject : String
  «from» : String
  «to» : String
  cc : String
  ccAddresses : List String
  bcc : String
  inReplyTo : Option String
  date : String
  receivedDate : String
  attachmentsCount : Nat
  plainTextLength : Nat
deriving DecidableEq, Repr

/-- The `constructMessageDetails` of `plugins/queue/firestore.js`.  `nowIso`
is the rendering of `new Date().toISOString()` at processing time. -/
def constructMessageDetails (email : ParsedEmail) (messageId : String)
    (storageReference : Option StorageReference) (nowIso : String) : MessageDetails :=
  { messageId := messageId
    bucketName := storageReference.map (fun r => r.bucketName)
    objectName := storageReference.map (fun r => r.objectName)
    storageUrl := storageReference.map (fun r => r.storageUrl)
    subject := email.subject.getD ""
    «from» := optText email.«from»
    «to» := optText email.«to»
    cc := optText email.cc
    ccAddresses := (email.cc.map (fun a => a.value)).getD []
    bcc := optText email.bcc
    inReplyTo :=
      match email.inReplyTo with
      | some s => if s.isEmpty then none else some s
      | none => none
    date := email.date.getD nowIso
    receivedDate := nowIso
    attachmentsCount :=
      match email.attachments with
      | some l => l.length
      | none => 0
    plainTextLength :=
      match email.text with
      | some t => t.length
      | none => 0 }

/-- Configuration of the firestore plugin: the two collection names read from
`firestore.ini`. -/
structure FirestoreCfg where
  merchantsPaymentNotificationsCollection : String
  merchantNotificationCollection : String
deriving DecidableEq, Repr

/-- A recipient-notification document of the top-level collection, with its
document id and its `notifications_email` field. -/
structure RecipientDoc where
  docId : String
  notifications_email : String
deriving DecidableEq, Repr

/-- Path of a metadata document:
`<collection>/<recipientDocId>/<subcollection>/<docId>`. -/
structure MetaPath where
  collection : String
  recipientDocId : String
  subcollection : String
  docId : String
deriving DecidableEq, Repr

/-- The Firestore database state the metadata stage touches: the recipient
collection and the per-recipient metadata documents, addressed by full path. -/
structure FirestoreDb where
  recipients : List RecipientDoc
  metaDocs : List (MetaPath × MessageDetails)
deriving DecidableEq, Repr

/-- The recipient lookup of `persist_email_details`: the query
`where('notifications_email', '==', messageDetails.to)` followed by `.docs[0]`.
Firestore returns the matching documents; taking index 0 of an empty result is
the unguarded case (in JavaScript, reading `.ref` of `undefined` throws). -/
def matchedRecipient (db : FirestoreDb) (toText : String) : Option RecipientDoc :=
  (db.recipients.filter (fun r => r.notifications_email == toText)).head?

/-- A `.doc(messageId).set(messageDetails)` on the recipient sub-collection:
full-document overwrite keyed by path. -/
def setMetaDoc (cfg : FirestoreCfg) (db : FirestoreDb) (recipientDocId messageId : String)
    (details : MessageDetails) : FirestoreDb :=
  let p : MetaPath :=
    { collection := cfg.merchantsPaymentNotificationsCollection
      recipientDocId := recipientDocId
      subcollection := cfg.merchantNotificationCollection
      docId := messageId }
  { db with metaDocs := (p, details) :: db.metaDocs.filter (fun e => !(e.1 == p)) }

namespace FirestorePlugin

/-- Line 72 of `plugins/queue/firestore.js`:
`storageReference ? storageReference.messageId : generateMessageId(email)`.
The ternary short-circuits, so `generateMessageId` (and with it the unbound
`crypto`) is evaluated only when no storage reference is present; the throw of
the fallback branch propagates as the error result. -/
def resolvedMessageId (storageReference : Option StorageReference) (email : ParsedEmail) :
    Except String String :=
  match storageReference with
  | some r => Except.ok r.messageId
  | none => generateMessageId email

/-- Inputs of one `persist_email_details` run that come from the environment:
the transaction guard, the note left by the archival stage, the parse result,
the clock, and fault flags for the two Firestore calls. -/
structure StageInput where
  hasTransaction : Bool
  storageReferenceNote : Option StorageReference
  parse : Except String ParsedEmail
  nowIso : String
  faultQuery : Bool
  faultSet : Bool

/-- The `persist_email_details` queue hook of `plugins/queue/firestore.js`.
Returns the continuation outcome passed to `next` and the database after the
run.  Every error thrown in the body (parse failure, the unbound-`crypto`
throw inside `generateMessageId`, query failure, the `.docs[0].ref` TypeError
on an empty match, set failure) is caught by the single catch block and mapped
to `next(DENYSOFT, "Persistence error")`. -/
def persist_email_details (cfg : FirestoreCfg) (inp : StageInput) (db : FirestoreDb) :
    HookResult × FirestoreDb :=
  if !inp.hasTransaction then (.next, db)
  else
    match inp.parse with
    | .error _ => (.nextDenySoft "Persistence error", db)
    | .ok email =>
      match resolvedMessageId inp.storageReferenceNote email with
      | .error _ => (.nextDenySoft "Persistence error", db)
      | .ok messageId =>
        let messageDetails :=
          constructMessageDetails email messageId inp.storageReferenceNote inp.nowIso
        if inp.faultQuery then (.nextDenySoft "Persistence error", db)
        else
          match matchedRecipient db messageDetails.«to» with
          | none => (.nextDenySoft "Persistence error", db)
          | some recipientDoc =>
            if inp.faultSet then (.nextDenySoft "Persistence error", db)
            else (.nextOK, setMetaDoc cfg db recipientDoc.docId messageId messageDetails)

/-- Whether some step of the `persist_email_details` try block fails on the
given input and database: parse failure, the unbound-`crypto` throw of the
identifier resolution, query failure, the empty-match TypeError, or set
failure. -/
def bodyFails (inp : StageInput) (db : FirestoreDb) : Bool :=
  match inp.parse with
  | .error _ => true
  | .ok email =>
    match resolvedMessageId inp.storageReferenceNote email with
    | .error _ => true
    | .ok _ =>
      inp.faultQuery || (matchedRecipient db (optText email.«to»)).isNone || inp.faultSet

end FirestorePlugin

namespace GcpStorage

/-- The object metadata built by `constructObjectMetadata` in
`plugins/queue/gcp_storage.js` (the nested `metadata` map flattened into the
same record). -/
structure ObjectMetadata where
  contentType : String
  resumable : Bool
  messageId : String
  subject : String
  «from» : String
  «to» : String
  date : String
deriving DecidableEq, Repr

/-- The `constructObjectMetadata` of `plugins/queue/gcp_storage.js`. -/
def constructObjectMetadata (parsedEmail : ParsedEmail) (messageId : String)
    (nowIso : String) : ObjectMetadata :=
  { contentType := "message/rfc822"
    resumable := false
    messageId := messageId
    subject := parsedEmail.subject.getD ""
    «from» := optText parsedEmail.«from»
    «to» := optText parsedEmail.«to»
    date := parsedEmail.date.getD nowIso }

/-- The blob-store state: uploaded objects and attached object metadata, both
keyed by bucket name and object name, overwrite-on-same-key. -/
structure BlobStore where
  objects : List (String × String × List Nat)
  metas : List (String × String × ObjectMetadata)
deriving DecidableEq, Repr

/-- The `uploadEmailToStorage` of `plugins/queue/gcp_storage.js`: a `save` of
the raw bytes followed by a `setMetadata`, each of which may fail (fault
flags).  A metadata failure still leaves the body written — the two writes are
not atomic.  Returns the store after the call and whether it completed. -/
def uploadEmailToStorage (store : BlobStore) (faultSave faultMeta : Bool)
    (emailBuffer : List Nat) (objectMetadata : ObjectMetadata)
    (bucketName objectName : String) : BlobStore × Bool :=
  if faultSave then (store, false)
  else
    let afterSave : BlobStore :=
      { store with objects :=
          (bucketName, objectName, emailBuffer) ::
            store.objects.filter (fun e => !(e.1 == bucketName && e.2.1 == objectName)) }
    if faultMeta then (afterSave, false)
    else
      ({ afterSave with metas :=
          (bucketName, objectName, objectMetadata) ::
            afterSave.metas.filter (fun e => !(e.1 == bucketName && e.2.1 == objectName)) },
       true)

/-- Configuration of the storage plugin: the bucket name and the
`queue.isSingleHandler` flag from `gcp_storage.ini`. -/
structure StorageCfg where
  bucketName : String
  isSingleHandler : Bool
deriving DecidableEq, Repr

/-- Inputs of one `save_email_in_bucket` run that come from the environment:
the guards, the note already on the transaction, the stream-capture and parse
results, fault flags for the two storage calls, randomness and clocks. -/
structure StageInput where
  hasTransaction : Bool
  hasMessageStream : Bool
  priorNote : Option StorageReference
  capture : Except String (List Nat)
  parse : Except String ParsedEmail
  faultSave : Bool
  faultMeta : Bool
  randBytes : List Nat
  now : Nat
  nowIso : String

/-- The guard of `save_email_in_bucket`:
`connection && connection.transaction && connection.transaction.message_stream`. -/
def guardPasses (inp : StageInput) : Bool :=
  inp.hasTransaction && inp.hasMessageStream

/-- The `save_email_in_bucket` queue hook of `plugins/queue/gcp_storage.js`.
Returns the continuation outcome passed to `next`, the `storageReference`
note on the transaction after the run, and the blob store after the run.  The
note is assigned only after `uploadEmailToStorage` resolves; every error in
the body is caught and mapped to `next(DENYSOFT, "Persistence error")`. -/
def save_email_in_bucket (cfg : StorageCfg) (inp : StageInput) (store : BlobStore) :
    HookResult × Option StorageReference × BlobStore :=
  if !guardPasses inp then (.next, inp.priorNote, store)
  else
    match inp.capture with
    | .error _ => (.nextDenySoft "Persistence error", inp.priorNote, store)
    | .ok rawEmailBuffer =>
      match inp.parse with
      | .error _ => (.nextDenySoft "Persistence error", inp.priorNote, store)
      | .ok email =>
        let messageId := generateMessageId email inp.randBytes inp.now
        let bucketName := cfg.bucketName
        let objectName := "emails/" ++ messageId ++ ".eml"
        let uploaded := uploadEmailToStorage store inp.faultSave inp.faultMeta rawEmailBuffer
          (constructObjectMetadata email messageId inp.nowIso) bucketName objectName
        if !uploaded.2 then (.nextDenySoft "Persistence error", inp.priorNote, uploaded.1)
        else
          let sref : StorageReference :=
            { bucketName := bucketName
              objectName := objectName
              messageId := messageId
              storageUrl := "gs://" ++ bucketName ++ "/" ++ objectName }
          if cfg.isSingleHandler then (.nextOK, some sref, uploaded.1)
          else (.next, some sref, uploaded.1)

/-- Whether some step of the `save_email_in_bucket` try block fails on the
given input: stream capture, parsing, the body upload, or the metadata
attach. -/
def bodyFails (inp : StageInput) : Bool :=
  match inp.capture with
  | .error _ => true
  | .ok _ =>
    match inp.parse with
    | .error _ => true
    | .ok _ => inp.faultSave || inp.faultMeta

end GcpStorage

theorem bytesToHex_length (bs : List Nat) : (bytesToHex bs).length = 2 * bs.length := by
  induction bs with
  | nil => rfl
  | cons b rest ih =>
    show (String.mk [hexDigit (b / 16 % 16), hexDigit (b % 16)] ++ bytesToHex rest).length = _
    rw [String.length_append]
    simp only [List.length_cons]
    rw [ih]
    simp [String.length]
    omega

/-- Concrete parsed email whose embedded identifier has inner angle brackets. -/
def angleEmail : ParsedEmail :=
  { messageId := some "a<b>c@x", subject := none, «from» := none, «to» := none,
    cc := none, bcc := none, inReplyTo := none, date := none, attachments := none,
    text := none }

/-- Concrete parsed email with the embedded identifier of the spec scenario. -/
def bracketEmail : ParsedEmail :=
  { messageId := some "<abc@x>", subject := none, «from» := none, «to» := none,
    cc := none, bcc := none, inReplyTo := none, date := none, attachments := none,
    text := none }

/-- C2 counterexample: on the embedded identifier `a<b>c@x`, the resolver does
not strip only enclosing delimiters — it removes the inner brackets too, so its
output differs from the only-enclosing-delimiters reading of the claim. -/
theorem generateMessageId_inner_brackets_cex :
    FirestorePlugin.generateMessageId angleEmail = Except.ok "abc@x" ∧
    stripEnclosingAngles "a<b>c@x" = "a<b>c@x" ∧
    FirestorePlugin.generateMessageId angleEmail
      ≠ Except.ok (stripEnclosingAngles "a<b>c@x") := by
  refine ⟨by decide, by decide, by decide⟩

/-- C2 (amended): for every parsed email whose embedded identifier is a
non-empty string, the resolver removes every angle-bracket character, wherever
it occurs, and returns the remaining characters in order (so it is a pure
function of the embedded identifier); in particular the embedded identifier
`<abc@x>` always resolves to `abc@x`. -/
theorem generateMessageId_strips_all_angles (email : ParsedEmail) (s : String)
    (h : email.messageId = some s) (hne : s.isEmpty = false) :
    FirestorePlugin.generateMessageId email
        = Except.ok (String.mk (s.toList.filter (fun c => !(c == '<') && !(c == '>')))) ∧
    FirestorePlugin.generateMessageId bracketEmail = Except.ok "abc@x" := by
  constructor
  · simp [FirestorePlugin.generateMessageId, h, hne, stripAngles]
  · decide

theorem generateMessageId_strips_all_angles_witness :
    FirestorePlugin.generateMessageId angleEmail
        = Except.ok (String.mk ("a<b>c@x".toList.filter
            (fun c => !(c == '<') && !(c == '>')))) ∧
    FirestorePlugin.generateMessageId bracketEmail = Except.ok "abc@x" :=
  generateMessageId_strips_all_angles angleEmail "a<b>c@x" rfl (by decide)

/-- Concrete parsed email with no embedded identifier. -/
def plainEmail : ParsedEmail :=
  { messageId := none, subject := none, «from» := none, «to» := none,
    cc := none, bcc := none, inReplyTo := none, date := none, attachments := none,
    text := none }

/-- C3: for a parsed email without an embedded identifier, the archival stage
generates the hex rendering of the 16 random bytes with the timestamp appended
(hyphen-separated), and 16 bytes render as 32 hex characters — but the
firestore stage does not generate the hex value alone as specified: its
fallback branch evaluates the unbound `crypto` and throws, so the metadata
stage can never produce a generated identifier. -/
theorem archival_id_generated_metadata_id_throws (email : ParsedEmail)
    (randBytes : List Nat) (now : Nat)
    (h : email.messageId = none) (hlen : randBytes.length = 16) :
    GcpStorage.generateMessageId email randBytes now
        = bytesToHex randBytes ++ "-" ++ toString now ∧
    (bytesToHex randBytes).length = 32 ∧
    FirestorePlugin.generateMessageId email = Except.error "crypto is not defined" := by
  refine ⟨?_, ?_, ?_⟩
  · simp [GcpStorage.generateMessageId, h]
  · rw [bytesToHex_length, hlen]
  · simp [FirestorePlugin.generateMessageId, h]

theorem archival_id_generated_metadata_id_throws_witness :
    GcpStorage.generateMessageId plainEmail (List.replicate 16 0) 5
        = bytesToHex (List.replicate 16 0) ++ "-" ++ toString 5 ∧
    (bytesToHex (List.replicate 16 0)).length = 32 ∧
    FirestorePlugin.generateMessageId plainEmail = Except.error "crypto is not defined" :=
  archival_id_generated_metadata_id_throws plainEmail (List.replicate 16 0) 5 rfl
    (by decide)

theorem persist_result_characterization (cfg : FirestoreCfg)
    (inp : FirestorePlugin.StageInput) (db : FirestoreDb) :
    (FirestorePlugin.persist_email_details cfg inp db).1 =
      (if inp.hasTransaction then
        (if FirestorePlugin.bodyFails inp db then HookResult.nextDenySoft "Persistence error"
         else HookResult.nextOK)
       else HookResult.next) := by
  rcases inp with ⟨ht, note, parse, niso, fq, fs⟩
  cases ht
  · simp [FirestorePlugin.persist_email_details]
  · cases parse with
    | error e => simp [FirestorePlugin.persist_email_details, FirestorePlugin.bodyFails]
    | ok email =>
      cases hres : FirestorePlugin.resolvedMessageId note email with
      | error err =>
        simp [FirestorePlugin.persist_email_details, FirestorePlugin.bodyFails, hres]
      | ok mid =>
        cases fq
        · cases hm : matchedRecipient db (optText email.«to») with
          | none =>
            simp [FirestorePlugin.persist_email_details, FirestorePlugin.bodyFails,
              constructMessageDetails, hres, hm]
          | some recipientDoc =>
            cases fs <;>
              simp [FirestorePlugin.persist_email_details, FirestorePlugin.bodyFails,
                constructMessageDetails, hres, hm]
        · simp [FirestorePlugin.persist_email_details, FirestorePlugin.bodyFails, hres]

theorem save_result_characterization (cfg : GcpStorage.StorageCfg)
    (inp : GcpStorage.StageInput) (store : GcpStorage.BlobStore) :
    (GcpStorage.save_email_in_bucket cfg inp store).1 =
      (if GcpStorage.guardPasses inp then
        (if GcpStorage.bodyFails inp then HookResult.nextDenySoft "Persistence error"
         else if cfg.isSingleHandler then HookResult.nextOK else HookResult.next)
       else HookResult.next) := by
  rcases inp with ⟨ht, hms, pnote, cap, parse, fsv, fmt, rand, now, niso⟩
  cases ht
  · cases hms <;> simp [GcpStorage.save_email_in_bucket, GcpStorage.guardPasses]
  · cases hms
    · simp [GcpStorage.save_email_in_bucket, GcpStorage.guardPasses]
    · cases cap with
      | error e =>
        simp [GcpStorage.save_email_in_bucket, GcpStorage.guardPasses, GcpStorage.bodyFails]
      | ok raw =>
        cases parse with
        | error e =>
          simp [GcpStorage.save_email_in_bucket, GcpStorage.guardPasses, GcpStorage.bodyFails]
        | ok email =>
          cases fsv <;> cases fmt <;> cases hs : cfg.isSingleHandler <;>
            simp [GcpStorage.save_email_in_bucket, GcpStorage.guardPasses,
              GcpStorage.bodyFails, GcpStorage.uploadEmailToStorage, hs]

/-- C4: for both stage entry points, every error raised inside the stage body
is caught and mapped to the single continuation invocation
`next(DENYSOFT, "Persistence error")`; each stage is a total function of its
inputs returning exactly one continuation outcome on every exit path (success,
guard skip, or error), and an outcome other than the soft reject occurs only
when no step of the body failed — no error is swallowed into a silent success. -/
theorem stages_continuation_contract (cfg : FirestoreCfg)
    (inp : FirestorePlugin.StageInput) (db : FirestoreDb)
    (scfg : GcpStorage.StorageCfg) (sinp : GcpStorage.StageInput)
    (store : GcpStorage.BlobStore) :
    ((FirestorePlugin.persist_email_details cfg inp db).1
        = HookResult.nextDenySoft "Persistence error"
      ↔ inp.hasTransaction = true ∧ FirestorePlugin.bodyFails inp db = true) ∧
    ((FirestorePlugin.persist_email_details cfg inp db).1 = HookResult.nextOK
      ↔ inp.hasTransaction = true ∧ FirestorePlugin.bodyFails inp db = false) ∧
    ((FirestorePlugin.persist_email_details cfg inp db).1 = HookResult.next
      ↔ inp.hasTransaction = false) ∧
    ((GcpStorage.save_email_in_bucket scfg sinp store).1
        = HookResult.nextDenySoft "Persistence error"
      ↔ GcpStorage.guardPasses sinp = true ∧ GcpStorage.bodyFails sinp = true) ∧
    ((GcpStorage.save_email_in_bucket scfg sinp store).1 = HookResult.nextOK
      ↔ GcpStorage.guardPasses sinp = true ∧ GcpStorage.bodyFails sinp = false
          ∧ scfg.isSingleHandler = true) ∧
    ((GcpStorage.save_email_in_bucket scfg sinp store).1 = HookResult.next
      ↔ GcpStorage.guardPasses sinp = false
          ∨ (GcpStorage.bodyFails sinp = false ∧ scfg.isSingleHandler = false)) := by
  have h1 := persist_result_characterization cfg inp db
  have h2 := save_result_characterization scfg sinp store
  rw [h1, h2]
  cases inp.hasTransaction <;> cases hb : FirestorePlugin.bodyFails inp db <;>
    cases GcpStorage.guardPasses sinp <;> cases hsb : GcpStorage.bodyFails sinp <;>
      cases scfg.isSingleHandler <;> simp

theorem persist_success_shape (cfg : FirestoreCfg) (inp : FirestorePlugin.StageInput)
    (db : FirestoreDb) (email : ParsedEmail) (recipientDoc : RecipientDoc) (mid : String)
    (ht : inp.hasTransaction = true) (hp : inp.parse = Except.ok email)
    (hres : FirestorePlugin.resolvedMessageId inp.storageReferenceNote email
      = Except.ok mid)
    (hq : inp.faultQuery = false)
    (hm : matchedRecipient db (optText email.«to») = some recipientDoc)
    (hs : inp.faultSet = false) :
    FirestorePlugin.persist_email_details cfg inp db =
      (HookResult.nextOK,
       setMetaDoc cfg db recipientDoc.docId mid
         (constructMessageDetails email mid inp.storageReferenceNote inp.nowIso)) := by
  rcases inp with ⟨ht0, note, parse, niso, fq, fs⟩
  simp only at ht hp hq hs hres
  subst ht hq hs hp
  simp [FirestorePlugin.persist_email_details, constructMessageDetails, hres, hm]

/-- C1: whenever the per-message context carries a StorageReference, the
identifier keying the written metadata document is the messageId of that
reference verbatim — line 72 short-circuits past `generateMessageId`, which is
consulted (its result, error or identifier, standing in for the resolution)
exactly when no StorageReference is present. -/
theorem persist_email_details_reuses_archival_id (cfg : FirestoreCfg)
    (inp : FirestorePlugin.StageInput) (db : FirestoreDb) (email : ParsedEmail)
    (recipientDoc : RecipientDoc) (sref : StorageReference)
    (ht : inp.hasTransaction = true) (hp : inp.parse = Except.ok email)
    (hnote : inp.storageReferenceNote = some sref)
    (hq : inp.faultQuery = false)
    (hm : matchedRecipient db (optText email.«to») = some recipientDoc)
    (hs : inp.faultSet = false) :
    (FirestorePlugin.persist_email_details cfg inp db).2.metaDocs.head? =
      some ({ collection := cfg.merchantsPaymentNotificationsCollection
              recipientDocId := recipientDoc.docId
              subcollection := cfg.merchantNotificationCollection
              docId := sref.messageId },
            constructMessageDetails email sref.messageId (some sref) inp.nowIso) ∧
    (∀ (r : StorageReference) (e : ParsedEmail),
      FirestorePlugin.resolvedMessageId (some r) e = Except.ok r.messageId) ∧
    (∀ e : ParsedEmail,
      FirestorePlugin.resolvedMessageId none e = FirestorePlugin.generateMessageId e) := by
  have hres : FirestorePlugin.resolvedMessageId inp.storageReferenceNote email
      = Except.ok sref.messageId := by
    simp [FirestorePlugin.resolvedMessageId, hnote]
  refine ⟨?_, ?_, ?_⟩
  · rw [persist_success_shape cfg inp db email recipientDoc sref.messageId ht hp hres hq
      hm hs]
    simp [setMetaDoc, hnote]
  · intro r e
    simp [FirestorePlugin.resolvedMessageId]
  · intro e
    simp [FirestorePlugin.resolvedMessageId]

/-- Concrete fixtures used by the witnesses below. -/
def wRef : StorageReference :=
  { bucketName := "bkt", objectName := "emails/id1.eml", messageId := "id1",
    storageUrl := "gs://bkt/emails/id1.eml" }

def wEmail : ParsedEmail :=
  { messageId := none, subject := some "Hello",
    «from» := some { text := "x@y.com", value := ["x@y.com"] },
    «to» := some { text := "a@example.com", value := ["a@example.com"] },
    cc := none, bcc := none, inReplyTo := none, date := none,
    attachments := some [], text := some "hi" }

def wRecipient : RecipientDoc := { docId := "rec1", notifications_email := "a@example.com" }

def wDb : FirestoreDb := { recipients := [wRecipient], metaDocs := [] }

def wCfg : FirestoreCfg :=
  { merchantsPaymentNotificationsCollection := "merchants",
    merchantNotificationCollection := "notifications" }

def wInpRef : FirestorePlugin.StageInput :=
  { hasTransaction := true, storageReferenceNote := some wRef,
    parse := Except.ok wEmail, nowIso := "t0",
    faultQuery := false, faultSet := false }

theorem persist_email_details_reuses_archival_id_witness :
    (FirestorePlugin.persist_email_details wCfg wInpRef wDb).2.metaDocs.head? =
      some ({ collection := wCfg.merchantsPaymentNotificationsCollection
              recipientDocId := wRecipient.docId
              subcollection := wCfg.merchantNotificationCollection
              docId := wRef.messageId },
            constructMessageDetails wEmail wRef.messageId (some wRef) wInpRef.nowIso) ∧
    (∀ (r : StorageReference) (e : ParsedEmail),
      FirestorePlugin.resolvedMessageId (some r) e = Except.ok r.messageId) ∧
    (∀ e : ParsedEmail,
      FirestorePlugin.resolvedMessageId none e = FirestorePlugin.generateMessageId e) :=
  persist_email_details_reuses_archival_id wCfg wInpRef wDb wEmail wRecipient wRef rfl rfl
    rfl rfl (by decide) rfl

/-- C5: when zero recipient documents match the to address, the metadata stage
fails explicitly — the unguarded `.docs[0].ref` raises, the catch maps it to
the soft reject surfaced to the coordinator — the database is left unchanged,
and the stage never completes as a silent success or pass-through. -/
theorem persist_email_details_zero_matches_fails (cfg : FirestoreCfg)
    (inp : FirestorePlugin.StageInput) (db : FirestoreDb) (email : ParsedEmail)
    (ht : inp.hasTransaction = true) (hp : inp.parse = Except.ok email)
    (hq : inp.faultQuery = false)
    (hm : matchedRecipient db (optText email.«to») = none) :
    FirestorePlugin.persist_email_details cfg inp db
      = (HookResult.nextDenySoft "Persistence error", db) ∧
    (FirestorePlugin.persist_email_details cfg inp db).1 ≠ HookResult.nextOK ∧
    (FirestorePlugin.persist_email_details cfg inp db).1 ≠ HookResult.next := by
  have h : FirestorePlugin.persist_email_details cfg inp db
      = (HookResult.nextDenySoft "Persistence error", db) := by
    rcases inp with ⟨ht0, note, parse, niso, fq, fs⟩
    simp only at ht hp hq
    subst ht hq hp
    cases hres : FirestorePlugin.resolvedMessageId note email with
    | error err => simp [FirestorePlugin.persist_email_details, hres]
    | ok mid =>
      simp [FirestorePlugin.persist_email_details, constructMessageDetails, hres, hm]
  exact ⟨h, by simp [h], by simp [h]⟩

/-- Concrete empty database, a reference-free stage input carrying the
scenario email (no embedded identifier), and a reference-free input carrying
an email with an embedded identifier, so that its run reaches the recipient
lookup. -/
def wDbEmpty : FirestoreDb := { recipients := [], metaDocs := [] }

def wInpNone : FirestorePlugin.StageInput :=
  { hasTransaction := true, storageReferenceNote := none,
    parse := Except.ok wEmail, nowIso := "t0",
    faultQuery := false, faultSet := false }

def wInpId : FirestorePlugin.StageInput :=
  { hasTransaction := true, storageReferenceNote := none,
    parse := Except.ok bracketEmail, nowIso := "t0",
    faultQuery := false, faultSet := false }

theorem persist_email_details_zero_matches_fails_witness :
    FirestorePlugin.persist_email_details wCfg wInpId wDbEmpty
      = (HookResult.nextDenySoft "Persistence error", wDbEmpty) ∧
    (FirestorePlugin.persist_email_details wCfg wInpId wDbEmpty).1 ≠ HookResult.nextOK ∧
    (FirestorePlugin.persist_email_details wCfg wInpId wDbEmpty).1 ≠ HookResult.next :=
  persist_email_details_zero_matches_fails wCfg wInpId wDbEmpty bracketEmail rfl rfl rfl
    (by decide)

theorem filter_eq_after_filter_ne (p : MetaPath) (l : List (MetaPath × MessageDetails)) :
    (l.filter (fun e => !(e.1 == p))).filter (fun e => e.1 == p) = [] := by
  induction l with
  | nil => rfl
  | cons a t ih => cases h : (a.1 == p) <;> simp [List.filter_cons, h, ih]

theorem setMetaDoc_unique_key (cfg : FirestoreCfg) (db : FirestoreDb) (rid mid : String)
    (d : MessageDetails) :
    ((setMetaDoc cfg db rid mid d).metaDocs.filter (fun e =>
        e.1 == { collection := cfg.merchantsPaymentNotificationsCollection
                 recipientDocId := rid
                 subcollection := cfg.merchantNotificationCollection
                 docId := mid })).length = 1 := by
  simp [setMetaDoc, List.filter_cons, filter_eq_after_filter_ne]

/-- C9: running the metadata stage twice with the same inputs leaves exactly
one metadata document under the matched recipient sub-collection for the
resolved message identifier — the second `set` overwrites the first, keyed by
the identifier, and the second run still succeeds. -/
theorem persist_email_details_idempotent (cfg : FirestoreCfg)
    (inp : FirestorePlugin.StageInput) (db : FirestoreDb) (email : ParsedEmail)
    (recipientDoc : RecipientDoc) (mid : String)
    (ht : inp.hasTransaction = true) (hp : inp.parse = Except.ok email)
    (hres : FirestorePlugin.resolvedMessageId inp.storageReferenceNote email
      = Except.ok mid)
    (hq : inp.faultQuery = false)
    (hm : matchedRecipient db (optText email.«to») = some recipientDoc)
    (hs : inp.faultSet = false) :
    ((FirestorePlugin.persist_email_details cfg inp
        (FirestorePlugin.persist_email_details cfg inp db).2).2.metaDocs.filter (fun e =>
          e.1 == { collection := cfg.merchantsPaymentNotificationsCollection
                   recipientDocId := recipientDoc.docId
                   subcollection := cfg.merchantNotificationCollection
                   docId := mid })).length = 1 ∧
    (FirestorePlugin.persist_email_details cfg inp
        (FirestorePlugin.persist_email_details cfg inp db).2).1 = HookResult.nextOK := by
  have h1 := persist_success_shape cfg inp db email recipientDoc mid ht hp hres hq hm hs
  have hrec : matchedRecipient (FirestorePlugin.persist_email_details cfg inp db).2
      (optText email.«to») = some recipientDoc := by
    rw [h1]
    simpa [matchedRecipient, setMetaDoc] using hm
  have h2 := persist_success_shape cfg inp (FirestorePlugin.persist_email_details cfg inp db).2
    email recipientDoc mid ht hp hres hq hrec hs
  constructor
  · rw [h2]
    exact setMetaDoc_unique_key cfg _ recipientDoc.docId _ _
  · rw [h2]

theorem persist_email_details_idempotent_witness :
    ((FirestorePlugin.persist_email_details wCfg wInpRef
        (FirestorePlugin.persist_email_details wCfg wInpRef wDb).2).2.metaDocs.filter (fun e =>
          e.1 == { collection := wCfg.merchantsPaymentNotificationsCollection
                   recipientDocId := wRecipient.docId
                   subcollection := wCfg.merchantNotificationCollection
                   docId := wRef.messageId })).length = 1 ∧
    (FirestorePlugin.persist_email_details wCfg wInpRef
        (FirestorePlugin.persist_email_details wCfg wInpRef wDb).2).1 = HookResult.nextOK :=
  persist_email_details_idempotent wCfg wInpRef wDb wEmail wRecipient wRef.messageId rfl
    rfl rfl rfl (by decide) rfl

/-- C8: on the scenario inputs — no embedded identifier and no
StorageReference — the metadata stage throws at the unbound `crypto` inside
`generateMessageId` (line 72) before `constructMessageDetails` (line 73) ever
runs, so no record with a generated identifier is built and the stage soft
rejects with the database unchanged; the non-identifier scenario fields are
the ones `constructMessageDetails` would produce for any supplied identifier,
with the storage fields absent exactly as claimed. -/
theorem metadata_scenario_throws_before_record (cfg : FirestoreCfg)
    (inp : FirestorePlugin.StageInput) (db : FirestoreDb) (email : ParsedEmail)
    (ht : inp.hasTransaction = true) (hp : inp.parse = Except.ok email)
    (hnote : inp.storageReferenceNote = none)
    (hid : email.messageId = none)
    (hsub : email.subject = some "Hello")
    (hfrom : optText email.«from» = "x@y.com")
    (hto : optText email.«to» = "a@example.com")
    (htext : email.text = some "hi")
    (hatt : email.attachments = some []) :
    FirestorePlugin.generateMessageId email = Except.error "crypto is not defined" ∧
    FirestorePlugin.persist_email_details cfg inp db
      = (HookResult.nextDenySoft "Persistence error", db) ∧
    (∀ mid : String,
      (constructMessageDetails email mid none inp.nowIso).subject = "Hello" ∧
      (constructMessageDetails email mid none inp.nowIso).«from» = "x@y.com" ∧
      (constructMessageDetails email mid none inp.nowIso).«to» = "a@example.com" ∧
      (constructMessageDetails email mid none inp.nowIso).plainTextLength = 2 ∧
      (constructMessageDetails email mid none inp.nowIso).attachmentsCount = 0 ∧
      (constructMessageDetails email mid none inp.nowIso).bucketName = none ∧
      (constructMessageDetails email mid none inp.nowIso).objectName = none ∧
      (constructMessageDetails email mid none inp.nowIso).storageUrl = none) := by
  have hgen : FirestorePlugin.generateMessageId email
      = Except.error "crypto is not defined" := by
    simp [FirestorePlugin.generateMessageId, hid]
  refine ⟨hgen, ?_, ?_⟩
  · rcases inp with ⟨ht0, note, parse, niso, fq, fs⟩
    simp only at ht hp hnote
    subst ht hp hnote
    simp [FirestorePlugin.persist_email_details, FirestorePlugin.resolvedMessageId, hgen]
  · intro mid
    refine ⟨?_, ?_, ?_, ?_, ?_, ?_, ?_, ?_⟩
    · simp [constructMessageDetails, hsub]
    · simp [constructMessageDetails, hfrom]
    · simp [constructMessageDetails, hto]
    · simp [constructMessageDetails, htext]
      decide
    · simp [constructMessageDetails, hatt]
    · simp [constructMessageDetails]
    · simp [constructMessageDetails]
    · simp [constructMessageDetails]

theorem metadata_scenario_throws_before_record_witness :
    FirestorePlugin.generateMessageId wEmail = Except.error "crypto is not defined" ∧
    FirestorePlugin.persist_email_details wCfg wInpNone wDb
      = (HookResult.nextDenySoft "Persistence error", wDb) ∧
    (∀ mid : String,
      (constructMessageDetails wEmail mid none wInpNone.nowIso).subject = "Hello" ∧
      (constructMessageDetails wEmail mid none wInpNone.nowIso).«from» = "x@y.com" ∧
      (constructMessageDetails wEmail mid none wInpNone.nowIso).«to» = "a@example.com" ∧
      (constructMessageDetails wEmail mid none wInpNone.nowIso).plainTextLength = 2 ∧
      (constructMessageDetails wEmail mid none wInpNone.nowIso).attachmentsCount = 0 ∧
      (constructMessageDetails wEmail mid none wInpNone.nowIso).bucketName = none ∧
      (constructMessageDetails wEmail mid none wInpNone.nowIso).objectName = none ∧
      (constructMessageDetails wEmail mid none wInpNone.nowIso).storageUrl = none) :=
  metadata_scenario_throws_before_record wCfg wInpNone wDb wEmail rfl rfl rfl rfl rfl rfl
    rfl rfl rfl

theorem save_success_parts (cfg : GcpStorage.StorageCfg) (inp : GcpStorage.StageInput)
    (store : GcpStorage.BlobStore) (raw : List Nat) (email : ParsedEmail)
    (hg : GcpStorage.guardPasses inp = true)
    (hc : inp.capture = Except.ok raw)
    (hp : inp.parse = Except.ok email)
    (hfsv : inp.faultSave = false)
    (hfmt : inp.faultMeta = false) :
    (GcpStorage.save_email_in_bucket cfg inp store).2.1
      = some { bucketName := cfg.bucketName
               objectName := "emails/"
                 ++ GcpStorage.generateMessageId email inp.randBytes inp.now ++ ".eml"
               messageId := GcpStorage.generateMessageId email inp.randBytes inp.now
               storageUrl := "gs://" ++ cfg.bucketName ++ "/"
                 ++ ("emails/" ++ GcpStorage.generateMessageId email inp.randBytes inp.now
                     ++ ".eml") } ∧
    (GcpStorage.save_email_in_bucket cfg inp store).2.2.objects.head?
      = some (cfg.bucketName,
              "emails/" ++ GcpStorage.generateMessageId email inp.randBytes inp.now ++ ".eml",
              raw) := by
  rcases inp with ⟨sht, shms, pnote, cap, sparse, fsv, fmt, srand, snow, sniso⟩
  simp only [GcpStorage.guardPasses] at hg
  simp only at hc hp hfsv hfmt
  obtain ⟨hg1, hg2⟩ := (Bool.and_eq_true sht shms).mp hg
  subst hg1 hg2 hc hp hfsv hfmt
  cases hsng : cfg.isSingleHandler <;>
    simp [GcpStorage.save_email_in_bucket, GcpStorage.guardPasses,
      GcpStorage.uploadEmailToStorage, hsng]

/-- C7: on a successful archival-stage run, the continuation is invoked with
the final-accept code when `queue.isSingleHandler` is set and with no argument
otherwise; these are the only two success-path continuation outcomes. -/
theorem save_email_success_continuation (cfg : GcpStorage.StorageCfg)
    (inp : GcpStorage.StageInput) (store : GcpStorage.BlobStore) (raw : List Nat)
    (email : ParsedEmail)
    (hg : GcpStorage.guardPasses inp = true)
    (hc : inp.capture = Except.ok raw)
    (hp : inp.parse = Except.ok email)
    (hfsv : inp.faultSave = false)
    (hfmt : inp.faultMeta = false) :
    (cfg.isSingleHandler = true →
      (GcpStorage.save_email_in_bucket cfg inp store).1 = HookResult.nextOK) ∧
    (cfg.isSingleHandler = false →
      (GcpStorage.save_email_in_bucket cfg inp store).1 = HookResult.next) ∧
    ((GcpStorage.save_email_in_bucket cfg inp store).1 = HookResult.nextOK ∨
     (GcpStorage.save_email_in_bucket cfg inp store).1 = HookResult.next) := by
  have h := save_result_characterization cfg inp store
  have hb : GcpStorage.bodyFails inp = false := by
    simp [GcpStorage.bodyFails, hc, hp, hfsv, hfmt]
  refine ⟨?_, ?_, ?_⟩
  · intro hsng
    rw [h]
    simp [hg, hb, hsng]
  · intro hsng
    rw [h]
    simp [hg, hb, hsng]
  · rw [h]
    cases hsng : cfg.isSingleHandler <;> simp [hg, hb, hsng]

/-- Concrete fixtures for the archival-stage witnesses. -/
def wSEmail : ParsedEmail :=
  { messageId := some "id1", subject := none, «from» := none, «to» := none,
    cc := none, bcc := none, inReplyTo := none, date := none, attachments := none,
    text := none }

def wSCfg : GcpStorage.StorageCfg := { bucketName := "bkt", isSingleHandler := false }

def wSInp : GcpStorage.StageInput :=
  { hasTransaction := true, hasMessageStream := true, priorNote := none,
    capture := Except.ok [1, 2], parse := Except.ok wSEmail,
    faultSave := false, faultMeta := false, randBytes := [], now := 7, nowIso := "t0" }

def wStore : GcpStorage.BlobStore := { objects := [], metas := [] }

theorem save_email_success_continuation_witness :
    (wSCfg.isSingleHandler = true →
      (GcpStorage.save_email_in_bucket wSCfg wSInp wStore).1 = HookResult.nextOK) ∧
    (wSCfg.isSingleHandler = false →
      (GcpStorage.save_email_in_bucket wSCfg wSInp wStore).1 = HookResult.next) ∧
    ((GcpStorage.save_email_in_bucket wSCfg wSInp wStore).1 = HookResult.nextOK ∨
     (GcpStorage.save_email_in_bucket wSCfg wSInp wStore).1 = HookResult.next) :=
  save_email_success_continuation wSCfg wSInp wStore [1, 2] wSEmail rfl rfl rfl rfl rfl

/-- C6: on a successful archival run the blob is written at the head of the
store under key `emails/<id>.eml` in the configured bucket, and the published
StorageReference carries exactly that bucket, key, identifier, and the
`gs://<bucket>/<key>` location; when the metadata stage then runs with that
reference, its document is written at
`<recipientCollection>/<matchedRecipientDocId>/<metadataSubcollection>/<messageIdentifier>`. -/
theorem persisted_layout (scfg : GcpStorage.StorageCfg) (sinp : GcpStorage.StageInput)
    (store : GcpStorage.BlobStore) (raw : List Nat) (semail : ParsedEmail)
    (cfg : FirestoreCfg) (inp : FirestorePlugin.StageInput) (db : FirestoreDb)
    (email : ParsedEmail) (recipientDoc : RecipientDoc) (sref : StorageReference)
    (hg : GcpStorage.guardPasses sinp = true)
    (hc : sinp.capture = Except.ok raw)
    (hsp : sinp.parse = Except.ok semail)
    (hfsv : sinp.faultSave = false)
    (hfmt : sinp.faultMeta = false)
    (hpub : (GcpStorage.save_email_in_bucket scfg sinp store).2.1 = some sref)
    (hnote : inp.storageReferenceNote = some sref)
    (ht : inp.hasTransaction = true)
    (hp : inp.parse = Except.ok email)
    (hq : inp.faultQuery = false)
    (hm : matchedRecipient db (optText email.«to») = some recipientDoc)
    (hset : inp.faultSet = false) :
    sref.messageId = GcpStorage.generateMessageId semail sinp.randBytes sinp.now ∧
    sref.bucketName = scfg.bucketName ∧
    sref.objectName = "emails/" ++ sref.messageId ++ ".eml" ∧
    sref.storageUrl = "gs://" ++ sref.bucketName ++ "/" ++ sref.objectName ∧
    (GcpStorage.save_email_in_bucket scfg sinp store).2.2.objects.head?
      = some (sref.bucketName, sref.objectName, raw) ∧
    (FirestorePlugin.persist_email_details cfg inp db).2.metaDocs.head?
      = some ({ collection := cfg.merchantsPaymentNotificationsCollection
                recipientDocId := recipientDoc.docId
                subcollection := cfg.merchantNotificationCollection
                docId := sref.messageId },
              constructMessageDetails email sref.messageId (some sref) inp.nowIso) := by
  have hparts := save_success_parts scfg sinp store raw semail hg hc hsp hfsv hfmt
  rw [hparts.1] at hpub
  have hsref := Option.some.inj hpub
  subst hsref
  refine ⟨rfl, rfl, rfl, rfl, hparts.2, ?_⟩
  have hres : FirestorePlugin.resolvedMessageId inp.storageReferenceNote email
      = Except.ok (StorageReference.messageId
        { bucketName := scfg.bucketName
          objectName := "emails/"
            ++ GcpStorage.generateMessageId semail sinp.randBytes sinp.now ++ ".eml"
          messageId := GcpStorage.generateMessageId semail sinp.randBytes sinp.now
          storageUrl := "gs://" ++ scfg.bucketName ++ "/"
            ++ ("emails/" ++ GcpStorage.generateMessageId semail sinp.randBytes sinp.now
                ++ ".eml") }) := by
    simp [FirestorePlugin.resolvedMessageId, hnote]
  rw [persist_success_shape cfg inp db email recipientDoc _ ht hp hres hq hm hset]
  simp [setMetaDoc, hnote]

theorem persisted_layout_witness :
    wRef.messageId = GcpStorage.generateMessageId wSEmail wSInp.randBytes wSInp.now ∧
    wRef.bucketName = wSCfg.bucketName ∧
    wRef.objectName = "emails/" ++ wRef.messageId ++ ".eml" ∧
    wRef.storageUrl = "gs://" ++ wRef.bucketName ++ "/" ++ wRef.objectName ∧
    (GcpStorage.save_email_in_bucket wSCfg wSInp wStore).2.2.objects.head?
      = some (wRef.bucketName, wRef.objectName, [1, 2]) ∧
    (FirestorePlugin.persist_email_details wCfg wInpRef wDb).2.metaDocs.head?
      = some ({ collection := wCfg.merchantsPaymentNotificationsCollection
                recipientDocId := wRecipient.docId
                subcollection := wCfg.merchantNotificationCollection
                docId := wRef.messageId },
              constructMessageDetails wEmail wRef.messageId (some wRef) wInpRef.nowIso) :=
  persisted_layout wSCfg wSInp wStore [1, 2] wSEmail wCfg wInpRef wDb wEmail wRecipient wRef
    rfl rfl rfl rfl rfl (by decide) rfl rfl rfl rfl (by decide) rfl

/-- C10: whenever any step of the archival-stage body fails — stream capture,
parsing, the body upload, or the metadata attach — the per-message
`storageReference` note is left exactly as it was before the run, so the
metadata stage can never observe a reference for a message whose archive write
did not fully complete. -/
theorem save_email_failure_preserves_note (cfg : GcpStorage.StorageCfg)
    (inp : GcpStorage.StageInput) (store : GcpStorage.BlobStore)
    (h : GcpStorage.bodyFails inp = true) :
    (GcpStorage.save_email_in_bucket cfg inp store).2.1 = inp.priorNote := by
  rcases inp with ⟨sht, shms, pnote, cap, sparse, fsv, fmt, srand, snow, sniso⟩
  cases sht <;> cases shms <;> cases cap <;> cases sparse <;> cases fsv <;> cases fmt <;>
    simp_all [GcpStorage.save_email_in_bucket, GcpStorage.guardPasses, GcpStorage.bodyFails,
      GcpStorage.uploadEmailToStorage]

/-- Concrete archival input whose metadata attach fails. -/
def wSInpFail : GcpStorage.StageInput :=
  { hasTransaction := true, hasMessageStream := true, priorNote := none,
    capture := Except.ok [1, 2], parse := Except.ok wSEmail,
    faultSave := false, faultMeta := true, randBytes := [], now := 7, nowIso := "t0" }

theorem save_email_failure_preserves_note_witness :
    (GcpStorage.save_email_in_bucket wSCfg wSInpFail wStore).2.1 = wSInpFail.priorNote :=
  save_email_failure_preserves_note wSCfg wSInpFail wStore (by decide)
